import Mathlib

/-!
Verification of the revenue-estimation pipeline of `app.py`.

The script is a single linear pandas pipeline.  We embed each stage as a pure
Lean function over lists of records:

* `coerce_dates` — `pd.to_datetime(df["date"], errors="coerce")` (app.py:14):
  each raw date string is parsed per row; failures become the sentinel `none`
  (pandas `NaT`) instead of aborting the batch.
* `normalize` — `df["paid"].abs()` then `df[df["paid"] > 0]` (app.py:25-26).
* `date_filter` — `df[(df["date"] >= start) & (df["date"] <= end)]`
  (app.py:40); a `NaT` date fails both comparisons, so such rows never pass.
* `min_date` / `max_date` — `df["date"].min()` / `.max()` (app.py:33-34),
  which skip `NaT` entries.
* `insurance_filter` — the "All Insurances" sentinel keeps everything,
  otherwise rows are restricted to the selected payer (app.py:47-50).
* `payer_summary_groups` — `groupby(["charge_code", "charge_description"])`
  with `mean`/`sum`/`count` (app.py:87-91) followed by rounding both money
  columns to one decimal place (app.py:94-95).
* `grand_total` — the synthetic "GRAND TOTAL" row built from the already
  rounded per-group columns (app.py:98-104), appended once (app.py:107).
* `procedure_options` / `find_group` / `default_claims` /
  `projected_revenue` — the selection and projection block (app.py:123-147).
* `selection_stage` — the same block including the failure mode of
  `st.selectbox` over an empty option list, whose `None` result makes
  `selected_procedure.split(" - ", 1)` (app.py:129) raise `AttributeError`.

Amounts are modelled as exact rationals; rounding to one decimal place uses
round-half-to-even (`rhe`), the rounding mode of `numpy`/pandas `.round`.
Dates are modelled as natural numbers (any totally ordered stamp works).
-/

namespace RevenueEstimator

/-- Round a rational to the nearest integer, ties to even (the rounding mode
of pandas / numpy `.round`). -/
def rhe (q : ℚ) : ℤ :=
  if q - ⌊q⌋ < 1/2 then ⌊q⌋
  else if 1/2 < q - ⌊q⌋ then ⌊q⌋ + 1
  else if ⌊q⌋ % 2 = 0 then ⌊q⌋ else ⌊q⌋ + 1

/-- `Series.round(1)` (app.py:94-95, 101-102): round to one decimal place. -/
def round1 (q : ℚ) : ℚ := (rhe (q * 10) : ℚ) / 10

/-- One raw CSV row, before the `DATE` column has been parsed. -/
structure RawRow where
  account : String
  insurance : String
  charge_code : String
  charge_description : String
  date_raw : String
  paid : ℚ
deriving DecidableEq

/-- One ledger record after date coercion: `date = none` is the pandas `NaT`
sentinel produced by `pd.to_datetime(..., errors="coerce")` for an
unparsable value (app.py:14). -/
structure Record where
  account : String
  insurance : String
  charge_code : String
  charge_description : String
  date : Option Nat
  paid : ℚ
deriving DecidableEq

/-- Parse one row's date with the given (partial) parser; the row itself is
always kept, a parse failure only marks its date as `none` (app.py:14). -/
def to_record (parse : String → Option Nat) (w : RawRow) : Record :=
  { account := w.account, insurance := w.insurance,
    charge_code := w.charge_code, charge_description := w.charge_description,
    date := parse w.date_raw, paid := w.paid }

/-- `pd.to_datetime(df["date"], errors="coerce")` (app.py:14): per-row
coercion, never aborting the batch. -/
def coerce_dates (parse : String → Option Nat) (rows : List RawRow) :
    List Record :=
  rows.map (to_record parse)

/-- `df["paid"] = df["paid"].abs(); df = df[df["paid"] > 0]` (app.py:25-26). -/
def normalize (rows : List Record) : List Record :=
  (rows.map (fun r => { r with paid := |r.paid| })).filter
    (fun r => decide (0 < r.paid))

/-- `df[(df["date"] >= start) & (df["date"] <= end)]` (app.py:40).  A `NaT`
date compares false on both sides, hence is dropped here. -/
def date_filter (rows : List Record) (s e : Nat) : List Record :=
  rows.filter (fun r =>
    match r.date with
    | some d => decide (s ≤ d) && decide (d ≤ e)
    | none => false)

/-- The valid (non-`NaT`) dates of a record set. -/
def valid_dates (rows : List Record) : List Nat :=
  rows.filterMap Record.date

/-- `df["date"].min()` (app.py:33): minimum over valid dates, `NaT` skipped. -/
def min_date (rows : List Record) : Option Nat :=
  match valid_dates rows with
  | [] => none
  | d :: ds => some (ds.foldl Nat.min d)

/-- `df["date"].max()` (app.py:34): maximum over valid dates, `NaT` skipped. -/
def max_date (rows : List Record) : Option Nat :=
  match valid_dates rows with
  | [] => none
  | d :: ds => some (ds.foldl Nat.max d)

/-- Lines 47-50 of app.py: the sentinel `"All Insurances"` keeps every row,
any other selection keeps the rows of that payer. -/
def insurance_filter (rows : List Record) (sel : String) : List Record :=
  if sel = "All Insurances" then rows
  else rows.filter (fun r => decide (r.insurance = sel))

/-- One row of the summary table (app.py:87-104). -/
structure GroupSummary where
  charge_code : String
  charge_description : String
  avg_paid : ℚ
  total_paid : ℚ
  total_claims : Nat
deriving DecidableEq

/-- First-occurrence deduplication, the order `pandas` uses for `.unique()`. -/
def dedup_first {α : Type} [DecidableEq α] : List α → List α
  | [] => []
  | a :: l => a :: (dedup_first l).filter (fun x => decide (x ≠ a))

/-- The distinct `(charge_code, charge_description)` pairs of a record set:
the grouping keys of `groupby(["charge_code", "charge_description"])`
(app.py:87). -/
def group_keys (rows : List Record) : List (String × String) :=
  dedup_first (rows.map (fun r => (r.charge_code, r.charge_description)))

/-- The member records of one group. -/
def group_rows (rows : List Record) (k : String × String) : List Record :=
  rows.filter (fun r =>
    decide (r.charge_code = k.1) && decide (r.charge_description = k.2))

/-- Sum of the `paid` column. -/
def paid_sum (rows : List Record) : ℚ := (rows.map Record.paid).sum

/-- One group's summary row: `mean`, `sum` and `count` of the group
(app.py:88-90), with both money columns rounded to one decimal place
(app.py:94-95). -/
def summarize (rows : List Record) (k : String × String) : GroupSummary :=
  { charge_code := k.1, charge_description := k.2,
    avg_paid := round1 (paid_sum (group_rows rows k) /
      ((group_rows rows k).length : ℚ)),
    total_paid := round1 (paid_sum (group_rows rows k)),
    total_claims := (group_rows rows k).length }

/-- The per-group part of `payer_summary` (app.py:87-95). -/
def payer_summary_groups (rows : List Record) : List GroupSummary :=
  (group_keys rows).map (summarize rows)

/-- The `grand_total` row (app.py:98-104): built from the already-rounded
per-group columns — mean of the rounded averages rounded again, sum of the
rounded totals rounded again, sum of the counts. -/
def grand_total (gs : List GroupSummary) : GroupSummary :=
  { charge_code := "GRAND TOTAL", charge_description := "",
    avg_paid := round1 ((gs.map GroupSummary.avg_paid).sum / (gs.length : ℚ)),
    total_paid := round1 ((gs.map GroupSummary.total_paid).sum),
    total_claims := (gs.map GroupSummary.total_claims).sum }

/-- `pd.concat([payer_summary, grand_total])` (app.py:107): groups first,
then the single grand-total row. -/
def payer_summary (rows : List Record) : List GroupSummary :=
  payer_summary_groups rows ++ [grand_total (payer_summary_groups rows)]

/-- `charge_code + " - " + charge_description` (app.py:123). -/
def procedure_display (g : GroupSummary) : String :=
  g.charge_code ++ " - " ++ g.charge_description

/-- The selectable procedures (app.py:124): displays of the summary rows
whose `charge_code` is not `"GRAND TOTAL"`, deduplicated. -/
def procedure_options (summary : List GroupSummary) : List String :=
  dedup_first ((summary.filter
    (fun g => decide (g.charge_code ≠ "GRAND TOTAL"))).map procedure_display)

/-- `filtered_data` (app.py:132-135) reduced to its first row, the one the
script reads with `.values[0]`. -/
def find_group (summary : List GroupSummary) (code desc : String) :
    Option GroupSummary :=
  (summary.filter (fun g =>
    decide (g.charge_code = code) && decide (g.charge_description = desc))).head?

/-- `default_claims` (app.py:138): the matched row's claim count, or 1 when
nothing matches. -/
def default_claims (summary : List GroupSummary) (code desc : String) : Nat :=
  match find_group summary code desc with
  | some g => g.total_claims
  | none => 1

/-- `projected_revenue = avg_payment_per_procedure * entered_volume`
(app.py:146): no further rounding. -/
def projected_revenue (avg : ℚ) (v : Nat) : ℚ := avg * (v : ℚ)

/-- Outcome of the projection block: a revenue figure, or the neutral
`st.warning` of app.py:149. -/
inductive ProjectionResult where
  | revenue : ℚ → ProjectionResult
  | noData : ProjectionResult
deriving DecidableEq

/-- `st.selectbox` (app.py:126): defaults to the first option; over an empty
option list it yields `None`. -/
def selectbox (options : List String) : Option String := options.head?

/-- `selected_procedure.split(" - ", 1)` (app.py:129): split at the first
occurrence of the separator; fewer than two pieces would fail the unpacking. -/
def split_selected (s : String) : Except String (String × String) :=
  match s.splitOn " - " with
  | code :: d :: rest => Except.ok (code, String.intercalate " - " (d :: rest))
  | _ => Except.error "ValueError"

/-- The whole selection/projection block (app.py:126-149).  `volume` is the
operator's entry in the number input, `none` meaning the default is kept.
When the option list is empty, `selectbox` yields `None` and the attribute
access `None.split` of app.py:129 raises. -/
def selection_stage (summary : List GroupSummary) (volume : Option Nat) :
    Except String ProjectionResult :=
  match selectbox (procedure_options summary) with
  | none => Except.error "AttributeError"
  | some s =>
    match split_selected s with
    | Except.error e => Except.error e
    | Except.ok (code, desc) =>
      match find_group summary code desc with
      | some g => Except.ok (ProjectionResult.revenue
          (projected_revenue g.avg_paid
            (volume.getD (default_claims summary code desc))))
      | none => Except.ok ProjectionResult.noData

/-! ### Helper lemmas -/

lemma mem_dedup_first {α : Type} [DecidableEq α] {a : α} :
    ∀ {l : List α}, a ∈ dedup_first l ↔ a ∈ l := by
  intro l
  induction l with
  | nil => simp [dedup_first]
  | cons b l ih =>
    by_cases hab : a = b
    · subst hab; simp [dedup_first]
    · simp [dedup_first, List.mem_filter, ih, hab]

/-! ### Test fixtures (concrete record sets for witnesses and
counterexamples) -/

/-- Two `PayerA` office visits, as in the spec's concrete scenario. -/
def w_r1 : Record :=
  { account := "1", insurance := "PayerA", charge_code := "99213",
    charge_description := "Office Visit", date := some 5, paid := 100 }

def w_r2 : Record :=
  { account := "2", insurance := "PayerA", charge_code := "99213",
    charge_description := "Office Visit", date := some 10, paid := 120 }

def w_rows : List Record := [w_r1, w_r2]

/-- One code paired with two differing descriptions. -/
def w2_r1 : Record :=
  { account := "1", insurance := "P", charge_code := "X",
    charge_description := "A", date := some 1, paid := 10 }

def w2_r2 : Record :=
  { account := "2", insurance := "P", charge_code := "X",
    charge_description := "B", date := some 1, paid := 20 }

def w2_rows : List Record := [w2_r1, w2_r2]

/-! ### Claims -/

/-- C1: the grand-total row is computed from the already-rounded per-group
values: its `total_paid` is `round1` of the sum of the groups' rounded
`total_paid` values, its `avg_paid` is the mean of the groups' rounded
`avg_paid` values rounded to one decimal place, and its `total_claims` is
the sum of the groups' claim counts — for every non-empty group sequence
produced by aggregation. -/
theorem C1 (rows : List Record) (h : payer_summary_groups rows ≠ []) :
    (grand_total (payer_summary_groups rows)).total_paid
        = round1 (((payer_summary_groups rows).map GroupSummary.total_paid).sum)
      ∧ (grand_total (payer_summary_groups rows)).avg_paid
        = round1 (((payer_summary_groups rows).map GroupSummary.avg_paid).sum
            / ((payer_summary_groups rows).length : ℚ))
      ∧ (grand_total (payer_summary_groups rows)).total_claims
        = ((payer_summary_groups rows).map GroupSummary.total_claims).sum :=
  ⟨rfl, rfl, rfl⟩

theorem C1_witness :
    payer_summary_groups w_rows ≠ []
      ∧ ((grand_total (payer_summary_groups w_rows)).total_paid
          = round1 (((payer_summary_groups w_rows).map GroupSummary.total_paid).sum)
        ∧ (grand_total (payer_summary_groups w_rows)).avg_paid
          = round1 (((payer_summary_groups w_rows).map GroupSummary.avg_paid).sum
              / ((payer_summary_groups w_rows).length : ℚ))
        ∧ (grand_total (payer_summary_groups w_rows)).total_claims
          = ((payer_summary_groups w_rows).map GroupSummary.total_claims).sum) :=
  ⟨by decide, C1 w_rows (by decide)⟩

/-- C2: aggregation groups by the pair `(charge_code, charge_description)`
— one code with two differing descriptions yields two distinct groups —
and each group's `avg_paid` is the rounded mean of its members' paid
amounts, its `total_paid` the rounded sum, and its `total_claims` the raw
member count. -/
theorem C2 (rows : List Record) :
    (∀ g ∈ payer_summary_groups rows,
        g.avg_paid = round1
          (paid_sum (group_rows rows (g.charge_code, g.charge_description))
            / ((group_rows rows (g.charge_code, g.charge_description)).length : ℚ))
        ∧ g.total_paid = round1
          (paid_sum (group_rows rows (g.charge_code, g.charge_description)))
        ∧ g.total_claims
          = (group_rows rows (g.charge_code, g.charge_description)).length)
    ∧ (∀ r1 ∈ rows, ∀ r2 ∈ rows, r1.charge_code = r2.charge_code →
        r1.charge_description ≠ r2.charge_description →
        ∃ g1 ∈ payer_summary_groups rows, ∃ g2 ∈ payer_summary_groups rows,
          g1.charge_code = r1.charge_code ∧ g2.charge_code = r1.charge_code
            ∧ g1 ≠ g2) := by
  constructor
  · intro g hg
    obtain ⟨k, hk, rfl⟩ := List.mem_map.mp hg
    exact ⟨rfl, rfl, rfl⟩
  · intro r1 h1 r2 h2 hcc hcd
    refine ⟨summarize rows (r1.charge_code, r1.charge_description),
      List.mem_map_of_mem _ (mem_dedup_first.mpr (List.mem_map_of_mem _ h1)),
      summarize rows (r2.charge_code, r2.charge_description),
      List.mem_map_of_mem _ (mem_dedup_first.mpr (List.mem_map_of_mem _ h2)),
      rfl, hcc.symm, fun h => ?_⟩
    exact hcd (congrArg GroupSummary.charge_description h)

theorem C2_witness :
    ∃ g1 ∈ payer_summary_groups w2_rows, ∃ g2 ∈ payer_summary_groups w2_rows,
      g1.charge_code = w2_r1.charge_code ∧ g2.charge_code = w2_r1.charge_code
        ∧ g1 ≠ g2 :=
  (C2 w2_rows).2 w2_r1 (List.mem_cons_self _ _)
    w2_r2 (List.mem_cons_of_mem _ (List.mem_cons_self _ _)) rfl (by decide)

lemma mem_of_mem_date_filter {rows : List Record} {s e : Nat} {r : Record}
    (h : r ∈ date_filter rows s e) : r ∈ rows :=
  (List.mem_filter.mp h).1

lemma mem_of_mem_insurance_filter {rows : List Record} {sel : String}
    {r : Record} (h : r ∈ insurance_filter rows sel) : r ∈ rows := by
  unfold insurance_filter at h
  split at h
  · exact h
  · exact (List.mem_filter.mp h).1

lemma mem_of_mem_group_rows {rows : List Record} {k : String × String}
    {r : Record} (h : r ∈ group_rows rows k) : r ∈ rows :=
  (List.mem_filter.mp h).1

/-- C3: projecting a matched group with entered volume `v` yields exactly
`avg_paid * v` with no further rounding; the default volume is the matched
group's claim count (so the default projection is `avg_paid * claim_count`),
and it falls back to 1 when no group matches. -/
theorem C3 (summary : List GroupSummary) (code desc : String) (v : Nat) :
    (∀ g, find_group summary code desc = some g →
        projected_revenue g.avg_paid v = g.avg_paid * (v : ℚ)
        ∧ default_claims summary code desc = g.total_claims
        ∧ projected_revenue g.avg_paid (default_claims summary code desc)
          = g.avg_paid * (g.total_claims : ℚ))
    ∧ (find_group summary code desc = none →
        default_claims summary code desc = 1) := by
  constructor
  · intro g hg
    refine ⟨rfl, ?_, ?_⟩
    · simp [default_claims, hg]
    · simp [projected_revenue, default_claims, hg]
  · intro hn
    simp [default_claims, hn]

theorem C3_witness :
    projected_revenue (summarize w_rows ("99213", "Office Visit")).avg_paid 5
        = (summarize w_rows ("99213", "Office Visit")).avg_paid * (5 : ℚ)
      ∧ default_claims (payer_summary w_rows) "99213" "Office Visit"
        = (summarize w_rows ("99213", "Office Visit")).total_claims
      ∧ projected_revenue (summarize w_rows ("99213", "Office Visit")).avg_paid
          (default_claims (payer_summary w_rows) "99213" "Office Visit")
        = (summarize w_rows ("99213", "Office Visit")).avg_paid
          * ((summarize w_rows ("99213", "Office Visit")).total_claims : ℚ) :=
  (C3 (payer_summary w_rows) "99213" "Office Visit" 5).1
    (summarize w_rows ("99213", "Office Visit")) rfl

/-- Rows used for the C4 witness: one negative and one zero payment. -/
def c4_r1 : Record :=
  { account := "1", insurance := "P", charge_code := "Y",
    charge_description := "D", date := some 3, paid := -2 }

def c4_r2 : Record :=
  { account := "2", insurance := "P", charge_code := "Y",
    charge_description := "D", date := some 4, paid := 0 }

def c4_rows : List Record := [c4_r1, c4_r2]

/-- C4: normalization replaces each record's paid amount by its absolute
value and drops the zero-paid records, so every record reaching the filter
stages — and every member of any group — has a strictly positive paid
amount. -/
theorem C4 (rows : List Record) (s e : Nat) (sel : String) :
    (∀ r ∈ normalize rows, 0 < r.paid
        ∧ ∃ r0 ∈ rows, r = { r0 with paid := |r0.paid| })
    ∧ (∀ r ∈ insurance_filter (date_filter (normalize rows) s e) sel,
        0 < r.paid)
    ∧ (∀ k : String × String, ∀ r ∈ group_rows
        (insurance_filter (date_filter (normalize rows) s e) sel) k,
        0 < r.paid) := by
  have hnorm : ∀ r ∈ normalize rows, 0 < r.paid
      ∧ ∃ r0 ∈ rows, r = { r0 with paid := |r0.paid| } := by
    intro r hr
    rw [normalize, List.mem_filter] at hr
    obtain ⟨hm, hp⟩ := hr
    obtain ⟨r0, hr0, heq⟩ := List.mem_map.mp hm
    exact ⟨of_decide_eq_true hp, r0, hr0, heq.symm⟩
  refine ⟨hnorm, fun r hr => ?_, fun k r hr => ?_⟩
  · exact (hnorm r (mem_of_mem_date_filter (mem_of_mem_insurance_filter hr))).1
  · exact (hnorm r (mem_of_mem_date_filter (mem_of_mem_insurance_filter
      (mem_of_mem_group_rows hr)))).1

theorem C4_witness :
    0 < ({ c4_r1 with paid := |c4_r1.paid| } : Record).paid
      ∧ ∃ r0 ∈ c4_rows,
        ({ c4_r1 with paid := |c4_r1.paid| } : Record)
          = { r0 with paid := |r0.paid| } :=
  (C4 c4_rows 0 9 "All Insurances").1 { c4_r1 with paid := |c4_r1.paid| }
    (List.mem_filter.mpr ⟨List.mem_map_of_mem _ (List.mem_cons_self _ _),
      by norm_num [c4_r1, abs_pos]⟩)

/-- C5: the time-window filter keeps a record with a valid service date `d`
iff `s ≤ d ≤ e`, for every window `[s, e]`. -/
theorem C5 (rows : List Record) (s e : Nat) (r : Record) (d : Nat)
    (hd : r.date = some d) :
    r ∈ date_filter rows s e ↔ r ∈ rows ∧ (s ≤ d ∧ d ≤ e) := by
  simp [date_filter, List.mem_filter, hd]

theorem C5_witness :
    w_r1 ∈ date_filter w_rows 2 7 ↔ w_r1 ∈ w_rows ∧ (2 ≤ 5 ∧ 5 ≤ 7) :=
  C5 w_rows 2 7 w_r1 5 rfl

lemma foldl_min_le (l : List Nat) (a : Nat) : l.foldl Nat.min a ≤ a := by
  induction l generalizing a with
  | nil => simp
  | cons x l ih =>
    rw [List.foldl_cons]
    exact le_trans (ih (Nat.min a x)) (Nat.min_le_left a x)

lemma foldl_min_le_mem :
    ∀ (l : List Nat) (a d : Nat), d ∈ l → l.foldl Nat.min a ≤ d := by
  intro l
  induction l with
  | nil => intro a d hd; cases hd
  | cons x l ih =>
    intro a d hd
    rw [List.foldl_cons]
    rcases List.mem_cons.mp hd with h | h
    · subst h
      exact le_trans (foldl_min_le l (Nat.min a d)) (Nat.min_le_right a d)
    · exact ih (Nat.min a x) d h

lemma le_foldl_max (l : List Nat) (a : Nat) : a ≤ l.foldl Nat.max a := by
  induction l generalizing a with
  | nil => simp
  | cons x l ih =>
    rw [List.foldl_cons]
    exact le_trans (Nat.le_max_left a x) (ih (Nat.max a x))

lemma mem_le_foldl_max :
    ∀ (l : List Nat) (a d : Nat), d ∈ l → d ≤ l.foldl Nat.max a := by
  intro l
  induction l with
  | nil => intro a d hd; cases hd
  | cons x l ih =>
    intro a d hd
    rw [List.foldl_cons]
    rcases List.mem_cons.mp hd with h | h
    · subst h
      exact le_trans (Nat.le_max_right a d) (le_foldl_max l (Nat.max a d))
    · exact ih (Nat.max a x) d h

lemma min_date_le {rows : List Record} {s : Nat}
    (hs : min_date rows = some s) : ∀ d ∈ valid_dates rows, s ≤ d := by
  unfold min_date at hs
  cases hv : valid_dates rows with
  | nil => rw [hv] at hs; cases hs
  | cons x xs =>
    rw [hv] at hs
    injection hs with hs
    subst hs
    intro d hd
    rcases List.mem_cons.mp hd with h | h
    · subst h; exact foldl_min_le xs d
    · exact foldl_min_le_mem xs x d h

lemma le_max_date {rows : List Record} {e : Nat}
    (he : max_date rows = some e) : ∀ d ∈ valid_dates rows, d ≤ e := by
  unfold max_date at he
  cases hv : valid_dates rows with
  | nil => rw [hv] at he; cases he
  | cons x xs =>
    rw [hv] at he
    injection he with he
    subst he
    intro d hd
    rcases List.mem_cons.mp hd with h | h
    · subst h; exact le_foldl_max xs d
    · exact mem_le_foldl_max xs x d h

lemma date_filter_full (rows : List Record) (s e : Nat)
    (h : ∀ r ∈ rows, ∃ d, r.date = some d ∧ s ≤ d ∧ d ≤ e) :
    date_filter rows s e = rows := by
  apply List.filter_eq_self.mpr
  intro r hr
  obtain ⟨d, hd, h1, h2⟩ := h r hr
  simp [hd, h1, h2]

/-- One record with an unparsable date (`NaT`) and positive paid amount: it
survives normalization and direct aggregation but is dropped by the date
filter even over the full span. -/
def c6_bad : Record :=
  { account := "1", insurance := "P", charge_code := "A",
    charge_description := "da", date := none, paid := 1 }

def c6_ok : Record :=
  { account := "2", insurance := "P", charge_code := "B",
    charge_description := "db", date := some 0, paid := 1 }

def c6_rows : List Record := [c6_bad, c6_ok]

/-- C6 counterexample: `c6_rows` is a normalized record set (all paid
amounts positive) whose full date span is `[0, 0]`, yet filtering by that
span with the "All Insurances" sentinel loses the `NaT`-dated record, so
the group summaries differ from aggregating the set directly. -/
theorem C6_counterexample :
    min_date c6_rows = some 0 ∧ max_date c6_rows = some 0
      ∧ (∀ r ∈ c6_rows, 0 < r.paid)
      ∧ payer_summary_groups (insurance_filter (date_filter c6_rows 0 0)
          "All Insurances") ≠ payer_summary_groups c6_rows :=
  ⟨by decide, by decide, by decide,
    fun h => absurd (congrArg List.length h) (by decide)⟩

/-- C6 amended: for every normalized record set all of whose records carry
a valid (parsable) service date, filtering by the full span
`[min_date, max_date]` with the "All Insurances" sentinel yields exactly
the group summaries of aggregating the set directly. -/
theorem C6_amended (rows : List Record) (s e : Nat)
    (hall : ∀ r ∈ rows, r.date.isSome = true)
    (hs : min_date rows = some s) (he : max_date rows = some e) :
    payer_summary_groups (insurance_filter (date_filter rows s e)
        "All Insurances") = payer_summary_groups rows := by
  have hfull : date_filter rows s e = rows := by
    apply date_filter_full
    intro r hr
    obtain ⟨d, hd⟩ := Option.isSome_iff_exists.mp (hall r hr)
    have hdm : d ∈ valid_dates rows := List.mem_filterMap.mpr ⟨r, hr, hd⟩
    exact ⟨d, hd, min_date_le hs d hdm, le_max_date he d hdm⟩
  rw [hfull]
  simp [insurance_filter]

theorem C6_amended_witness :
    (∀ r ∈ w_rows, r.date.isSome = true)
      ∧ min_date w_rows = some 5 ∧ max_date w_rows = some 10
      ∧ payer_summary_groups (insurance_filter (date_filter w_rows 5 10)
          "All Insurances") = payer_summary_groups w_rows :=
  ⟨by decide, by decide, by decide,
    C6_amended w_rows 5 10 (by decide) (by decide) (by decide)⟩

/-- C7: date coercion is per-row and total — a parse failure yields the
`none` sentinel for that row only, never dropping or aborting the batch —
and no record with an unparsable date survives the time-window filtering
stage, hence none contributes to any group. -/
theorem C7 (parse : String → Option Nat) (raws : List RawRow) (s e : Nat)
    (sel : String) :
    (coerce_dates parse raws).length = raws.length
    ∧ (∀ w ∈ raws, parse w.date_raw = none →
        to_record parse w ∉ date_filter (coerce_dates parse raws) s e)
    ∧ (∀ r ∈ date_filter (coerce_dates parse raws) s e, ∃ d, r.date = some d)
    ∧ (∀ k : String × String, ∀ r ∈ group_rows (insurance_filter
        (date_filter (coerce_dates parse raws) s e) sel) k,
        ∃ d, r.date = some d) := by
  have hvalid : ∀ r ∈ date_filter (coerce_dates parse raws) s e,
      ∃ d, r.date = some d := by
    intro r hr
    have hp := (List.mem_filter.mp hr).2
    cases hd : r.date with
    | none => rw [hd] at hp; cases hp
    | some d => exact ⟨d, rfl⟩
  refine ⟨List.length_map _ _, fun w hw hnone hmem => ?_, hvalid,
    fun k r hr => hvalid r (mem_of_mem_insurance_filter
      (mem_of_mem_group_rows hr))⟩
  obtain ⟨d, hd⟩ := hvalid _ hmem
  rw [to_record] at hd
  simp only [hnone] at hd
  cases hd

/-- Raw rows for the C7 witness: one parsable date, one garbage date. -/
def wparse : String → Option Nat :=
  fun t => if t = "2024-01-05" then some 5 else none

def c7_w1 : RawRow :=
  { account := "1", insurance := "P", charge_code := "A",
    charge_description := "D", date_raw := "2024-01-05", paid := 10 }

def c7_w2 : RawRow :=
  { account := "2", insurance := "P", charge_code := "A",
    charge_description := "D", date_raw := "not a date", paid := 20 }

def c7_raws : List RawRow := [c7_w1, c7_w2]

theorem C7_witness :
    (coerce_dates wparse c7_raws).length = c7_raws.length
      ∧ to_record wparse c7_w2 ∉ date_filter (coerce_dates wparse c7_raws) 0 9 :=
  ⟨(C7 wparse c7_raws 0 9 "All Insurances").1,
   (C7 wparse c7_raws 0 9 "All Insurances").2.1 c7_w2
     (List.mem_cons_of_mem _ (List.mem_cons_self _ _)) rfl⟩

/-- Records for C8: payer "Q" appears only at date 0, outside the chosen
window `[25, 30]`. -/
def c8_r1 : Record :=
  { account := "1", insurance := "Q", charge_code := "X",
    charge_description := "D", date := some 0, paid := 50 }

def c8_r2 : Record :=
  { account := "2", insurance := "P", charge_code := "X",
    charge_description := "D", date := some 30, paid := 60 }

def c8_rows : List Record := [c8_r1, c8_r2]

/-- C8: evaluating the code at the failing input.  Selecting payer "Q",
present only outside the window `[25, 30]`, does yield an empty group
sequence — but the projection block then has an empty option list, the
selectbox yields `None`, and `None.split(" - ", 1)` (app.py:129) raises
`AttributeError` instead of producing the claimed `NoData` result. -/
theorem C8_code_bug_eval :
    payer_summary_groups (insurance_filter (date_filter c8_rows 25 30) "Q")
        = []
      ∧ selection_stage
          (payer_summary (insurance_filter (date_filter c8_rows 25 30) "Q"))
          none
        = Except.error "AttributeError" :=
  ⟨rfl, rfl⟩

/-- C9: the grand-total row is appended exactly once at the end of the
summary sequence, and every selectable procedure option comes from a
summary row whose key is not the grand-total sentinel. -/
theorem C9 (rows : List Record) :
    payer_summary rows
        = payer_summary_groups rows
          ++ [grand_total (payer_summary_groups rows)]
    ∧ (∀ s ∈ procedure_options (payer_summary rows),
        ∃ g, g ∈ payer_summary rows ∧ g.charge_code ≠ "GRAND TOTAL"
          ∧ s = procedure_display g) := by
  refine ⟨rfl, fun s hs => ?_⟩
  unfold procedure_options at hs
  obtain ⟨g, hg, rfl⟩ := List.mem_map.mp (mem_dedup_first.mp hs)
  have hgf := List.mem_filter.mp hg
  exact ⟨g, hgf.1, of_decide_eq_true hgf.2, rfl⟩

theorem C9_witness :
    ∃ g, g ∈ payer_summary w_rows ∧ g.charge_code ≠ "GRAND TOTAL"
      ∧ "99213 - Office Visit" = procedure_display g :=
  (C9 w_rows).2 "99213 - Office Visit" (by decide)

lemma rhe_nonneg {q : ℚ} (h : 0 ≤ q) : 0 ≤ rhe q := by
  have hf : (0 : ℤ) ≤ ⌊q⌋ := Int.floor_nonneg.mpr h
  unfold rhe
  split
  · exact hf
  · split
    · omega
    · split
      · exact hf
      · omega

lemma round1_nonneg {q : ℚ} (h : 0 ≤ q) : 0 ≤ round1 q := by
  unfold round1
  have h10 : (0 : ℚ) ≤ (rhe (q * 10) : ℚ) := by
    exact_mod_cast rhe_nonneg (by positivity)
  positivity

lemma round1_eq_of_floor (q : ℚ) (z : ℤ) (hf : ⌊q * 10⌋ = z)
    (h1 : q * 10 - z < 1/2) : round1 q = (z : ℚ) / 10 := by
  unfold round1 rhe
  rw [hf, if_pos h1]

/-- One record whose paid amount rounds to zero at group level. -/
def c10_r : Record :=
  { account := "1", insurance := "P", charge_code := "X",
    charge_description := "D", date := some 0, paid := 1/25 }

def c10_rows : List Record := [c10_r]

/-- C10 counterexample: a group built from one record with the positive
paid amount 1/25 (four cents) has `claim_count = 1` but `total_paid = 0`,
because rounding the sum to one decimal place takes 0.04 to 0.0 — refuting
the claimed `total_paid > 0` invariant. -/
theorem C10_counterexample :
    (∀ r ∈ c10_rows, 0 < r.paid)
      ∧ ∃ g, g ∈ payer_summary_groups c10_rows ∧ 1 ≤ g.total_claims
        ∧ ¬ (0 < g.total_paid) := by
  refine ⟨by norm_num [c10_rows, c10_r], summarize c10_rows ("X", "D"),
    List.mem_cons_self _ _, by decide, ?_⟩
  have h1 : paid_sum (group_rows c10_rows ("X", "D")) = 1/25 := by
    show (1 : ℚ)/25 + 0 = 1/25
    norm_num
  have h2 : (summarize c10_rows ("X", "D")).total_paid = round1 (1/25) := by
    show round1 (paid_sum (group_rows c10_rows ("X", "D"))) = round1 (1/25)
    rw [h1]
  have h3 : round1 ((1 : ℚ)/25) = 0 := by
    have hf : ⌊(1 : ℚ)/25 * 10⌋ = 0 := by
      rw [Int.floor_eq_iff]
      norm_num
    have := round1_eq_of_floor (1/25) 0 hf (by norm_num)
    simpa using this
  rw [h2, h3]
  norm_num

/-- C10 amended: every group summary has `claim_count ≥ 1` and
`total_paid ≥ 0` (rounding to one decimal place can take a small positive
sum to exactly 0, so strict positivity of `total_paid` does not hold); the
default projection volume taken from a matched real group is that group's
claim count, hence a positive integer, and the fallback default 1 is used
exactly when no row matches. -/
theorem C10_amended (rows : List Record) (hpos : ∀ r ∈ rows, 0 < r.paid) :
    (∀ g ∈ payer_summary_groups rows, 1 ≤ g.total_claims ∧ 0 ≤ g.total_paid)
    ∧ (∀ code desc g, find_group (payer_summary rows) code desc = some g →
        g ∈ payer_summary_groups rows →
        default_claims (payer_summary rows) code desc = g.total_claims
          ∧ 1 ≤ g.total_claims)
    ∧ (∀ code desc, find_group (payer_summary rows) code desc = none →
        default_claims (payer_summary rows) code desc = 1) := by
  have hmain : ∀ g ∈ payer_summary_groups rows,
      1 ≤ g.total_claims ∧ 0 ≤ g.total_paid := by
    intro g hg
    obtain ⟨k, hk, rfl⟩ := List.mem_map.mp hg
    obtain ⟨r, hr, hkr⟩ := List.mem_map.mp (mem_dedup_first.mp hk)
    subst hkr
    have hmem : r ∈ group_rows rows (r.charge_code, r.charge_description) := by
      rw [group_rows, List.mem_filter]
      simp [hr]
    constructor
    · exact List.length_pos.mpr (List.ne_nil_of_mem hmem)
    · apply round1_nonneg
      apply List.sum_nonneg
      intro x hx
      obtain ⟨r', hr', rfl⟩ := List.mem_map.mp hx
      exact le_of_lt (hpos r' (mem_of_mem_group_rows hr'))
  refine ⟨hmain, fun code desc g hfg hgmem => ?_, fun code desc hn => ?_⟩
  · exact ⟨by simp [default_claims, hfg], (hmain g hgmem).1⟩
  · simp [default_claims, hn]

theorem C10_amended_witness :
    (∀ r ∈ w_rows, 0 < r.paid)
      ∧ (∀ g ∈ payer_summary_groups w_rows,
          1 ≤ g.total_claims ∧ 0 ≤ g.total_paid) :=
  ⟨by decide, (C10_amended w_rows (by decide)).1⟩

end RevenueEstimator
